import Mathlib

/-!
Verification development for the `earctl` core protocol engine.

The Rust source is shallowly embedded: machine integers (`u8`, `u16`, `u32`)
become `Nat` with explicit `% 2^w` where wrap-around matters, byte buffers
become `List Nat`, `f32` values are represented by their IEEE 754 bit
patterns (a `Nat` below `2^32`), and fallible code returns `Option` or
`Except`.  Each definition mirrors one function of the source
(`src/protocol.rs`, `src/connection.rs`, `src/service.rs`,
`src/models.rs`).
-/

/-- Error taxonomy (the variants of `EarError` in `src/error.rs` that the
claims mention). -/
inductive EarError where
  | CrcMismatch
  | Timeout (label : String)
  | Unsupported (label : String)
  | AlreadyConnected
  | NoSession
  | UnknownModel
deriving DecidableEq

/-- A decoded frame, `EarPacket` of `src/protocol.rs`: `command : u16`,
`operation_id : u8`, `payload : Vec<u8>`. -/
structure EarPacket where
  command : Nat
  operation_id : Nat
  payload : List Nat
deriving DecidableEq

/-- One round of the reflected CRC-16 inner loop of `crc16`
(`src/protocol.rs`): shift right, conditionally XOR the polynomial
`0xA001`. -/
def crcRound (crc : Nat) : Nat :=
  if crc % 2 = 1 then (crc / 2) ^^^ 0xA001 else crc / 2

/-- Processing of one byte by `crc16`: XOR the byte into the register, then
eight rounds. -/
def crcByte (crc b : Nat) : Nat :=
  crcRound (crcRound (crcRound (crcRound (crcRound (crcRound (crcRound (crcRound (crc ^^^ b))))))))

/-- The function `crc16` of `src/protocol.rs`: initial value `0xFFFF`,
polynomial `0xA001`, no final XOR, over all bytes of the buffer. -/
def crc16 (buffer : List Nat) : Nat :=
  buffer.foldl crcByte 0xFFFF

/-- The function `EarPacket::encode` of `src/protocol.rs`: header magic
`55 60 01`, command as little-endian `u16`, payload length as `u8`, a
reserved zero byte, the operation id, the payload, and the CRC-16 over
everything before it, little-endian. -/
def encode (command operationId : Nat) (payload : List Nat) : List Nat :=
  let body := [0x55, 0x60, 0x01, command % 256, command / 256 % 256,
    payload.length % 256, 0x00, operationId % 256] ++ payload
  body ++ [crc16 body % 256, crc16 body / 256 % 256]

/-- Outcome of one `EarPacket::try_parse` call: `Ok(None)` (need more
bytes), `Ok(Some(packet))`, or `Err(CrcMismatch)`.  The accumulator is
returned alongside because the Rust function mutates it in place. -/
inductive ParseResult where
  | needMore
  | packet (p : EarPacket)
  | crcError
deriving DecidableEq

/-- The `buffer.iter().position(|&byte| byte == HEADER_MAGIC[0])` search of
`try_parse`: index of the first `0x55`. -/
def findMagicIdx : List Nat → Option Nat
  | [] => none
  | b :: rest => if b = 0x55 then some 0 else (findMagicIdx rest).map (· + 1)

/-- The loop body of `EarPacket::try_parse`, with explicit fuel.  Each
`continue` of the Rust loop re-enters with a strictly shorter accumulator,
so `length + 1` fuel always suffices (see `tryParse`). -/
def tryParseGo : Nat → List Nat → ParseResult × List Nat
  | 0, buf => (.needMore, buf)
  | fuel + 1, buf =>
    if buf.length < 8 then (.needMore, buf)
    else
      match findMagicIdx buf with
      | none => (.needMore, [])
      | some i =>
        let buf1 := buf.drop i
        if buf1.length < 8 then (.needMore, buf1)
        else if buf1.getD 1 0 = 0x60 ∧ buf1.getD 2 0 = 0x01 then
          let payloadLen := buf1.getD 5 0
          let totalLen := 8 + payloadLen + 2
          if buf1.length < totalLen then (.needMore, buf1)
          else
            let packetBytes := buf1.take totalLen
            let rest := buf1.drop totalLen
            let crcExpected :=
              packetBytes.getD (totalLen - 2) 0 + 256 * packetBytes.getD (totalLen - 1) 0
            let crcActual := crc16 (packetBytes.take (totalLen - 2))
            if crcActual = crcExpected then
              (.packet
                { command := packetBytes.getD 3 0 + 256 * packetBytes.getD 4 0,
                  operation_id := packetBytes.getD 7 0,
                  payload := (packetBytes.drop 8).take payloadLen }, rest)
            else (.crcError, rest)
        else tryParseGo fuel (buf.drop (i + 1))

/-- The function `EarPacket::try_parse` of `src/protocol.rs`, acting on the
read accumulator.  The result carries the accumulator left behind. -/
def tryParse (buf : List Nat) : ParseResult × List Nat :=
  tryParseGo (buf.length + 1) buf

/-- The function `EarConnection::next_operation_id` of `src/connection.rs`
as a pure counter update: it stores and returns
`if cur >= 250 then 1 else max ((cur + 1) % 256) 1` (the `% 256` models the
`u8` `wrapping_add`). -/
def next_operation_id (cur : Nat) : Nat :=
  if 250 ≤ cur then 1 else max ((cur + 1) % 256) 1

/-- Counter contents after `n` calls of `next_operation_id` on a connection
freshly created by `EarConnection::open`, which initializes the counter
to `1`.  The id returned by the n-th call is `counterAfter n`. -/
def counterAfter : Nat → Nat
  | 0 => 1
  | n + 1 => next_operation_id (counterAfter n)

/-- Overwriting `l[off..off+src.length]` with `src`, the effect of Rust
`copy_from_slice` on a sub-slice (callers keep `off + src.length` within
the list). -/
def writeSlice (l : List Nat) (off : Nat) (src : List Nat) : List Nat :=
  l.take off ++ src ++ l.drop (off + src.length)

/-- Exponent field of an `f32` bit pattern. -/
def f32Exp (b : Nat) : Nat := b / 2 ^ 23 % 256

/-- Whether an `f32` bit pattern is a NaN (all-ones exponent, non-zero
mantissa). -/
def f32IsNaN (b : Nat) : Bool := f32Exp b == 255 && b % 2 ^ 23 != 0

/-- Order key of a finite `f32` bit pattern: its numeric value is a
strictly monotone function of this integer (positive patterns ordered by
magnitude, negative ones reversed; `+0.0` and `-0.0` share key `0`). -/
def f32Key (b : Nat) : Int :=
  if b < 2 ^ 31 then (b : Int) else -((b - 2 ^ 31 : Nat) : Int)

/-- The Rust comparison `value >= 0.0` on an `f32` bit pattern: false for
NaN, true for `+0.0`, `-0.0` and every non-negative value. -/
def fge0 (b : Nat) : Bool := !f32IsNaN b && decide (0 ≤ f32Key b)

/-- The Rust comparison `value != 0.0` on an `f32` bit pattern: true for
NaN and everything except `+0.0` and `-0.0`. -/
def fne0 (b : Nat) : Bool := f32IsNaN b || (b != 0 && b != 2 ^ 31)

/-- The Rust method `f32::max` (IEEE `maxNum`) on bit patterns: a NaN
argument yields the other argument; on numeric ties the first argument is
kept (Rust leaves the tie choice open; the code under verification never
lets the choice reach an observable output). -/
def fmax (a v : Nat) : Nat :=
  if f32IsNaN a then v
  else if f32IsNaN v then a
  else if f32Key a < f32Key v then v else a

/-- The Rust method `f32::abs` on bit patterns: clear the sign bit. -/
def fabs (b : Nat) : Nat := b % 2 ^ 31

/-- Rust unary minus on an `f32` bit pattern: flip the sign bit. -/
def fneg (b : Nat) : Nat := if b < 2 ^ 31 then b + 2 ^ 31 else b - 2 ^ 31

/-- The struct `CustomEq` of `src/types.rs`; the three `f32` band gains are
represented by their bit patterns. -/
structure CustomEq where
  bass : Nat
  mid : Nat
  treble : Nat
deriving DecidableEq

/-- The function `encode_eq_float` of `src/service.rs`: when `total` is set
and the value is `>= 0.0` return `[0,0,0,0x80]`; otherwise take the
big-endian IEEE bytes, OR `0x80` into the last byte when the value is
non-zero with three leading zero bytes, then swap bytes `0↔3` and
`1↔2`. -/
def encode_eq_float (v : Nat) (total : Bool) : List Nat :=
  if total && fge0 v then [0x00, 0x00, 0x00, 0x80]
  else
    let b0 := v / 2 ^ 24 % 256
    let b1 := v / 2 ^ 16 % 256
    let b2 := v / 2 ^ 8 % 256
    let b3 := v % 256
    let b3m := if fne0 v && b0 == 0 && b1 == 0 && b2 == 0 then b3 ||| 0x80 else b3
    [b3m, b2, b1, b0]

/-- The function `decode_eq_float` of `src/service.rs`: fewer than 4 bytes
decode to `0.0`; otherwise un-swap the bytes, and when the three leading
big-endian bytes are zero with the high bit of the fourth set, clear that
bit and negate.  Returns the resulting `f32` bit pattern. -/
def decode_eq_float (bs : List Nat) : Nat :=
  if bs.length < 4 then 0
  else
    let w0 := bs.getD 0 0
    let w1 := bs.getD 1 0
    let w2 := bs.getD 2 0
    let w3 := bs.getD 3 0
    if w3 = 0 ∧ w2 = 0 ∧ w1 = 0 ∧ w0 &&& 0x80 = 0x80 then fneg (w0 &&& 0x7F)
    else w3 * 2 ^ 24 + w2 * 2 ^ 16 + w1 * 2 ^ 8 + w0

/-- The fixed template `payload` of `encode_custom_eq` in
`src/service.rs` (53 bytes, transcribed literally). -/
def eqTemplate : List Nat :=
  [0x03, 0x00, 0x00, 0x00, 0x00, 0x01, 0x00, 0x00, 0x00, 0x00, 0x00, 0x00, 0x75, 0x44, 0xc3,
   0xf5, 0x28, 0x3f, 0x02, 0x00, 0x00, 0x00, 0x00, 0x00, 0xc0, 0x5a, 0x45, 0x00, 0x00, 0x80,
   0x3f, 0x00, 0x00, 0x00, 0x00, 0x00, 0x00, 0x00, 0x0c, 0x43, 0xcd, 0xcc, 0x4c, 0x3f, 0x00,
   0x00, 0x00, 0x00, 0x00, 0x00, 0x00, 0x00, 0x00]

/-- The function `encode_custom_eq` of `src/service.rs`: into the template,
write at `1..5` the bytes `encode_eq_float(-highest, true)` where
`highest = [mid, treble, bass].iter().fold(0.0, f32::max).abs()`, and at
`6 + 13*i` the bytes `encode_eq_float` of `mid`, `treble`, `bass`. -/
def encode_custom_eq (eq : CustomEq) : List Nat :=
  let highest := fabs (List.foldl fmax 0 [eq.mid, eq.treble, eq.bass])
  let withTotal := writeSlice eqTemplate 1 (encode_eq_float (fneg highest) true)
  let withMid := writeSlice withTotal 6 (encode_eq_float eq.mid false)
  let withTreble := writeSlice withMid 19 (encode_eq_float eq.treble false)
  writeSlice withTreble 32 (encode_eq_float eq.bass false)

/-- The function `decode_custom_eq` of `src/service.rs`: payloads shorter
than 45 bytes fail; the three bands are read at offsets `6 + 13*band`
(each band read is guarded by an `offset + 4 ≤ length` check that mirrors
the loop's early return). -/
def decode_custom_eq (payload : List Nat) : Option CustomEq :=
  if payload.length < 45 then none
  else if payload.length < 10 ∨ payload.length < 23 ∨ payload.length < 36 then none
  else
    let l0 := decode_eq_float ((payload.drop 6).take 4)
    let l1 := decode_eq_float ((payload.drop 19).take 4)
    let l2 := decode_eq_float ((payload.drop 32).take 4)
    some { bass := l2, mid := l0, treble := l1 }

/-- Claim C2's formula for the total slot, following the spec's words:
`encode_eq_float(-max(|mid|, |treble|, |bass|), total := true)`.  This
definition deliberately follows the SPEC, to be compared with the
source-derived `encode_custom_eq`. -/
def spec_total_bytes (eq : CustomEq) : List Nat :=
  encode_eq_float (fneg (fmax (fmax (fabs eq.mid) (fabs eq.treble)) (fabs eq.bass))) true

/-- The band (among `mid`, `treble`, `bass`, in the fold order of
`encode_custom_eq`) holding the greatest `f32` value, earlier bands
winning ties. -/
def bandArgmax (eq : CustomEq) : Nat :=
  if f32Key eq.treble ≤ f32Key eq.mid ∧ f32Key eq.bass ≤ f32Key eq.mid then eq.mid
  else if f32Key eq.bass ≤ f32Key eq.treble then eq.treble
  else eq.bass

/-- The enum `ModelBase` of `src/models.rs`. -/
inductive ModelBase where
  | Unknown
  | B181
  | B157
  | B155
  | B163
  | B171
  | B162
  | B164
  | B168
  | B172
  | B174
deriving DecidableEq

/-- The method `ModelBase::supports_case_led`: only `B181`. -/
def supports_case_led : ModelBase → Bool
  | .B181 => true
  | _ => false

/-- The method `ModelBase::supports_personalized_anc`: only `B155`. -/
def supports_personalized_anc : ModelBase → Bool
  | .B155 => true
  | _ => false

/-- The method `ModelBase::supports_enhanced_bass`: `B171`, `B172`,
`B168` or `B162`. -/
def supports_enhanced_bass : ModelBase → Bool
  | .B171 => true
  | .B172 => true
  | .B168 => true
  | .B162 => true
  | _ => false

/-- The method `ModelBase::supports_in_ear_detection`: everything except
`B174`. -/
def supports_in_ear_detection : ModelBase → Bool
  | .B174 => false
  | _ => true

/-- The method `ModelBase::supports_custom_eq`: everything except
`B181`. -/
def supports_custom_eq : ModelBase → Bool
  | .B181 => false
  | _ => true

/-- The method `ModelBase::supports_listening_modes`: `B168` or `B172`. -/
def supports_listening_modes : ModelBase → Bool
  | .B168 => true
  | .B172 => true
  | _ => false

/-- The enum `AncLevel` of `src/types.rs`. -/
inductive AncLevel where
  | Off
  | Transparency
  | NoiseCancellationLow
  | NoiseCancellationHigh
  | NoiseCancellationMid
  | NoiseCancellationAdaptive
deriving DecidableEq

/-- The method `AncLevel::to_device` of `src/types.rs`. -/
def ancToDevice : AncLevel → Nat
  | .Off => 0x05
  | .Transparency => 0x07
  | .NoiseCancellationLow => 0x03
  | .NoiseCancellationHigh => 0x01
  | .NoiseCancellationMid => 0x02
  | .NoiseCancellationAdaptive => 0x04

/-- The debug fixture literal `"12345678901234567"` checked first by
`derive_sku_from_serial`. -/
def debugSerial : List Char :=
  ['1', '2', '3', '4', '5', '6', '7', '8', '9', '0', '1', '2', '3', '4', '5', '6', '7']

/-- The function `derive_sku_from_serial` of `src/service.rs`, over ASCII
serial strings modelled as `List Char` (Rust indexes bytes; for ASCII the
two coincide).  The result's outer `Option` models divergence: `none`
means the Rust code panics, which happens exactly when the byte slice
`&serial[6..8]` in the `"MA"` branch is taken on a serial shorter than 8
bytes; `some r` means the function returns `r`. -/
def derive_sku_from_serial (serial : List Char) : Option (Option (List Char)) :=
  if serial = debugSerial then some (some ['0', '1'])
  else if serial.length < 6 then some none
  else
    let head := serial.take 2
    if head = ['M', 'A'] then
      if serial.length < 8 then none
      else
        let year := (serial.drop 6).take 2
        if year = ['2', '2'] ∨ year = ['2', '3'] then some (some ['1', '4'])
        else if year = ['2', '4'] then
          some (some ['1', '1', '2', '0', '0', '0', '0', '5'])
        else some none
    else if head = ['S', 'H'] ∨ head = ['1', '3'] then
      some (if 6 ≤ serial.length then some ((serial.drop 4).take 2) else none)
    else some none

/-- Per-session model descriptor (`ModelDescriptor` of `src/service.rs`);
only `base` matters for capability gating, the other fields are carried
for fidelity. -/
structure ModelDescriptor where
  base : ModelBase
  model_id : Option String
  name : Option String
  sku : Option String
  serial : Option String
deriving DecidableEq

/-- The helper `EarSessionHandle::model_base` of `src/service.rs`: the
descriptor's base, or `Unknown` when no descriptor has been set. -/
def model_base : Option ModelDescriptor → ModelBase
  | some m => m.base
  | none => .Unknown

/-- The capability-gated operations of `EarSessionHandle`
(`src/service.rs`): exactly those that call `require_support`, with the
arguments that shape the outgoing frame. -/
inductive GatedOp where
  | readAnc
  | setAnc (level : AncLevel)
  | getCustomEq
  | setCustomEq (eq : CustomEq)
  | readEnhancedBass
  | setEnhancedBass (enabled : Bool) (level : Nat)
  | getPersonalizedAnc
  | setPersonalizedAnc (enabled : Bool)
  | readInEar
  | setInEarDetection (enabled : Bool)
  | readLedCaseColors
  | setLedCaseColors (colors : List (Nat × Nat × Nat))

/-- The static label each gated operation passes to `require_support`. -/
def opLabel : GatedOp → String
  | .readAnc => "ANC read"
  | .setAnc _ => "ANC write"
  | .getCustomEq => "custom EQ"
  | .setCustomEq _ => "custom EQ"
  | .readEnhancedBass => "enhanced bass"
  | .setEnhancedBass _ _ => "enhanced bass"
  | .getPersonalizedAnc => "personalized ANC"
  | .setPersonalizedAnc _ => "personalized ANC"
  | .readInEar => "in-ear detection"
  | .setInEarDetection _ => "in-ear detection"
  | .readLedCaseColors => "case led color"
  | .setLedCaseColors _ => "case led color"

/-- The capability predicate each gated operation passes to
`require_support` (`src/service.rs`). -/
def opGate : GatedOp → ModelBase → Bool
  | .readAnc, base => !(base == .B157)
  | .setAnc _, base => !(base == .B157)
  | .getCustomEq, base => supports_custom_eq base
  | .setCustomEq _, base => supports_custom_eq base
  | .readEnhancedBass, base => supports_enhanced_bass base
  | .setEnhancedBass _ _, base => supports_enhanced_bass base
  | .getPersonalizedAnc, base => supports_personalized_anc base
  | .setPersonalizedAnc _, base => supports_personalized_anc base
  | .readInEar, base => supports_in_ear_detection base
  | .setInEarDetection _, base => supports_in_ear_detection base
  | .readLedCaseColors, base => supports_case_led base
  | .setLedCaseColors _, base => supports_case_led base

/-- Payload built by `EarSessionHandle::set_led_case_colors`: pixel count,
then for each pixel its 1-based index and the RGB bytes. -/
def ledSetPayload (colors : List (Nat × Nat × Nat)) : List Nat :=
  (colors.length % 256) ::
    (colors.enum.foldr
      (fun p acc => ((p.1 + 1) % 256) :: p.2.1 :: p.2.2.1 :: p.2.2.2 :: acc) [])

/-- The frame each gated operation writes to the byte channel once its
gate passes: commands and payloads per `src/service.rs` (for the read
operations this is the request frame that `transact` sends). -/
def opRequest (op : GatedOp) (opId : Nat) : List Nat :=
  match op with
  | .readAnc => encode 0xC01E opId []
  | .setAnc level => encode 0xF00F opId [0x01, ancToDevice level, 0x00]
  | .getCustomEq => encode 0xC044 opId []
  | .setCustomEq eq => encode 0xF041 opId (encode_custom_eq eq)
  | .readEnhancedBass => encode 0xC04E opId []
  | .setEnhancedBass enabled level =>
      encode 0xF051 opId [if enabled then 0x01 else 0x00, min (level * 2) 255]
  | .getPersonalizedAnc => encode 0xC020 opId []
  | .setPersonalizedAnc enabled => encode 0xF011 opId [if enabled then 0x01 else 0x00]
  | .readInEar => encode 0xC00E opId []
  | .setInEarDetection enabled => encode 0xF004 opId [0x01, 0x01, if enabled then 0x01 else 0x00]
  | .readLedCaseColors => encode 0xC017 opId []
  | .setLedCaseColors colors => encode 0xF00D opId (ledSetPayload colors)

/-- A gated session operation as run by `EarSessionHandle`: first
`require_support` consults the descriptor's base; only on success does the
operation lock the connection and write its frame.  The second component
is the byte sequence written to the byte channel (reply traffic of the
read operations is not modelled; no claim depends on it). -/
def runGated (model : Option ModelDescriptor) (op : GatedOp) (opId : Nat) :
    Except EarError Unit × List Nat :=
  if opGate op (model_base model) then (.ok (), opRequest op opId)
  else (.error (.Unsupported (opLabel op)), [])

/-- All typed command operations of `EarSessionHandle` (`src/service.rs`),
gated or not, abstracted from their arguments. -/
inductive SessionOp where
  | detectSerial
  | readBattery
  | readAnc
  | setAnc
  | readEq
  | setEqMode
  | getCustomEq
  | setCustomEq
  | readEnhancedBass
  | setEnhancedBass
  | getPersonalizedAnc
  | setPersonalizedAnc
  | readInEar
  | setInEarDetection
  | readLatency
  | setLatency
  | readFirmware
  | launchEarFitTest
  | readEarFitResult
  | readGestures
  | setGesture
  | readLedCaseColors
  | setLedCaseColors
  | ringBuds
deriving DecidableEq, Fintype

/-- Whether a session operation's gate passes for a given base: the
`require_support` predicate of the operation in `src/service.rs`, or
`true` for the operations that have no `require_support` call. -/
def sessionGate : SessionOp → ModelBase → Bool
  | .readAnc, base => !(base == .B157)
  | .setAnc, base => !(base == .B157)
  | .getCustomEq, base => supports_custom_eq base
  | .setCustomEq, base => supports_custom_eq base
  | .readEnhancedBass, base => supports_enhanced_bass base
  | .setEnhancedBass, base => supports_enhanced_bass base
  | .getPersonalizedAnc, base => supports_personalized_anc base
  | .setPersonalizedAnc, base => supports_personalized_anc base
  | .readInEar, base => supports_in_ear_detection base
  | .setInEarDetection, base => supports_in_ear_detection base
  | .readLedCaseColors, base => supports_case_led base
  | .setLedCaseColors, base => supports_case_led base
  | _, _ => true

/-- The enum `EarSide` of `src/types.rs`. -/
inductive EarSide where
  | Left
  | Right
  | Case
deriving DecidableEq, Fintype

/-- The `ring` payload built by `EarSessionHandle::ring_buds`
(`src/service.rs`): on base `B181` a single on/off byte, otherwise a side
byte (`0x02` for left, `0x03` for right or unspecified) followed by the
on/off byte. -/
def ringPayload (base : ModelBase) (enable : Bool) (side : Option EarSide) : List Nat :=
  if base = .B181 then [if enable then 0x01 else 0x00]
  else
    [match side with
     | some .Left => 0x02
     | _ => 0x03,
     if enable then 0x01 else 0x00]

/-- A session as installed by `EarManager::connect` (`src/service.rs`):
its fresh id and its mutable model descriptor, which starts out absent. -/
structure SessionState where
  sid : Nat
  model : Option ModelDescriptor
deriving DecidableEq

/-- The manager's single session slot (`EarManager` of `src/service.rs`). -/
structure ManagerState where
  slot : Option SessionState
deriving DecidableEq

/-- The method `EarManager::connect`: under the write lock, an occupied
slot yields `AlreadyConnected` before any connection is opened; otherwise
a connection is opened and a fresh session (absent model descriptor) is
installed.  The third component records whether `EarConnection::open` was
reached. -/
def connect (st : ManagerState) (freshId : Nat) :
    Except EarError SessionState × ManagerState × Bool :=
  match st.slot with
  | some _ => (.error .AlreadyConnected, st, false)
  | none =>
      let s : SessionState := { sid := freshId, model := none }
      (.ok s, { slot := some s }, true)

/-- The method `EarManager::disconnect`: under the write lock, an empty
slot yields `NoSession`; otherwise the slot is cleared. -/
def disconnect (st : ManagerState) : Except EarError Unit × ManagerState :=
  match st.slot with
  | none => (.error .NoSession, st)
  | some _ => (.ok (), { slot := none })

/-- The pixel loop of `parse_led_colors` (`src/service.rs`), structurally
recursive on the remaining count: group `index` is read at
`base = 2 + index * 4` as the three bytes `base`, `base+1`, `base+2`
(R, G, B); the loop breaks at the first group with `base + 2` outside the
payload. -/
def ledReadGo (payload : List Nat) : Nat → Nat → List (Nat × Nat × Nat)
  | _, 0 => []
  | index, n + 1 =>
    let base := 2 + index * 4
    if base + 2 < payload.length then
      (payload.getD base 0, payload.getD (base + 1) 0, payload.getD (base + 2) 0) ::
        ledReadGo payload (index + 1) n
    else []

/-- The function `parse_led_colors` of `src/service.rs`: empty payload
gives no pixels; otherwise `payload[0]` bounds the pixel count. -/
def parse_led_colors (payload : List Nat) : List (Nat × Nat × Nat) :=
  match payload with
  | [] => []
  | count :: _ => ledReadGo payload 0 count

/-- Claim C8's reading of the LED table, following the claim's words: the
parser returns `payload[0]` pixels, pixel `i` comes from a 4-byte group
starting at offset `2 + 4i` whose first byte is an ignored 1-based pixel
index followed by R, G, B, and groups that would run past the end of the
payload are dropped.  This definition deliberately follows the CLAIM, to
be compared with the source-derived `parse_led_colors`. -/
def led_colors_claim (payload : List Nat) : List (Nat × Nat × Nat) :=
  match payload with
  | [] => []
  | count :: _ =>
    (List.range count).filterMap fun i =>
      if 2 + 4 * i + 3 < payload.length then
        some (payload.getD (3 + 4 * i) 0, payload.getD (4 + 4 * i) 0, payload.getD (5 + 4 * i) 0)
      else none

/-! Helper lemmas (not claim theorems). -/

theorem counterAfter_eq (n : Nat) : counterAfter n = n % 250 + 1 := by
  induction n with
  | zero => rfl
  | succ n ih =>
    simp only [counterAfter, ih, next_operation_id]
    rcases Nat.lt_or_ge (n % 250) 249 with h | h
    · rw [if_neg (by omega)]
      omega
    · rw [if_pos (by omega)]
      omega

/-! Claim theorems. -/

/-- Claim C1, counterexample: the very first call of `next_operation_id`
after `EarConnection::open` returns `2`, not `1` as the claim states (the
counter is initialized to `1` and pre-incremented). -/
theorem c1_first_id_is_two : counterAfter 1 = 2 ∧ counterAfter 1 ≠ 1 := by decide

/-- Claim C1 (amended): the sequence of operation ids returned by
successive calls to `next_operation_id` on a single connection is
`2, 3, …, 250, 1, 2, …, 250, 1, …` — the n-th call returns
`n % 250 + 1` — so the first call after open returns `2`, and no call
ever returns `0`. -/
theorem c1_operation_id_sequence :
    (∀ n, counterAfter n = n % 250 + 1) ∧ counterAfter 1 = 2 ∧ ∀ n, counterAfter n ≠ 0 := by
  refine ⟨counterAfter_eq, by decide, fun n => ?_⟩
  rw [counterAfter_eq]
  omega

/-- Claim C3: `derive_sku_from_serial` is NOT total on the code — the
`"MA"` branch takes the byte slice `&serial[6..8]` unguarded, so any
serial of length 6 or 7 beginning `"MA"` panics (modelled by the outer
`none`); the spec's worked examples, evaluated alongside, do return. -/
theorem c3_derive_sku_panics_on_short_ma :
    derive_sku_from_serial ['M', 'A', '0', '0', '0', '0'] = none
  ∧ derive_sku_from_serial ['M', 'A', '_', '_', '_', '_', '2', '2', '_', '_', '_'] =
      some (some ['1', '4'])
  ∧ derive_sku_from_serial ['M', 'A', '_', '_', '_', '_', '2', '4', '_', '_', '_'] =
      some (some ['1', '1', '2', '0', '0', '0', '0', '5'])
  ∧ derive_sku_from_serial ['S', 'H', 'x', 'x', '1', '2', 'y', 'y', 'y', 'y'] =
      some (some ['1', '2'])
  ∧ derive_sku_from_serial ['1', '3', 'x', 'x', '4', '2', 'y', 'y', 'y', 'y'] =
      some (some ['4', '2'])
  ∧ derive_sku_from_serial debugSerial = some (some ['0', '1']) := by
  decide

/-- Claim C4: whenever a capability-gated session operation's predicate
rejects the current model base, the call returns `Unsupported` with the
operation's static label and writes no bytes to the byte channel. -/
theorem c4_unsupported_gate_blocks_wire (model : Option ModelDescriptor) (op : GatedOp)
    (opId : Nat) (h : opGate op (model_base model) = false) :
    runGated model op opId = (.error (.Unsupported (opLabel op)), []) := by
  simp [runGated, h]

/-- Claim C4, witness: on a session whose base is `B157`, `set_anc(Off)`
returns `Unsupported("ANC write")` and writes zero bytes. -/
theorem c4_unsupported_gate_blocks_wire_witness :
    opGate (GatedOp.setAnc .Off)
        (model_base (some ⟨.B157, none, none, none, none⟩)) = false
  ∧ runGated (some ⟨.B157, none, none, none, none⟩) (GatedOp.setAnc .Off) 7 =
      (.error (.Unsupported "ANC write"), []) :=
  ⟨by decide, c4_unsupported_gate_blocks_wire (some ⟨.B157, none, none, none, none⟩)
    (GatedOp.setAnc .Off) 7 (by decide)⟩

/-- Claim C9: the manager holds at most one session — `connect` on an
occupied slot returns `AlreadyConnected`, leaves the slot unchanged and
opens no connection, and `disconnect` on an empty slot returns `NoSession`
and leaves the slot empty. -/
theorem c9_manager_single_session (st : ManagerState) (fresh : Nat) (h : st.slot ≠ none) :
    connect st fresh = (.error .AlreadyConnected, st, false)
  ∧ disconnect { slot := none } = (.error .NoSession, { slot := none }) := by
  refine ⟨?_, rfl⟩
  cases hs : st.slot with
  | none => exact absurd hs h
  | some s => simp [connect, hs]

/-- Claim C9, witness: instantiated on a manager whose slot holds a
session. -/
theorem c9_manager_single_session_witness :
    ({ slot := some { sid := 5, model := none } } : ManagerState).slot ≠ none
  ∧ (connect { slot := some { sid := 5, model := none } } 9 =
      (.error .AlreadyConnected, { slot := some { sid := 5, model := none } }, false)
    ∧ disconnect { slot := none } = (.error .NoSession, { slot := none })) :=
  ⟨by decide, c9_manager_single_session { slot := some { sid := 5, model := none } } 9
    (by decide)⟩

/-- Claim C10: a session freshly installed by `connect` has no model
descriptor, so every operation gates against `ModelBase::Unknown`: the
ANC, custom-EQ and in-ear gates pass, every ungated operation passes,
exactly the case-LED, personalized-ANC and enhanced-bass operations are
rejected, and `ring_buds` emits the two-byte non-B181 payload. -/
theorem c10_fresh_session_gates_as_unknown :
    (∀ fresh, (connect { slot := none } fresh).1 = .ok { sid := fresh, model := none })
  ∧ model_base none = .Unknown
  ∧ (∀ op : SessionOp, sessionGate op (model_base none) = false ↔
      (op = .getPersonalizedAnc ∨ op = .setPersonalizedAnc ∨ op = .readEnhancedBass ∨
       op = .setEnhancedBass ∨ op = .readLedCaseColors ∨ op = .setLedCaseColors))
  ∧ (∀ (enable : Bool) (side : Option EarSide),
      ringPayload (model_base none) enable side =
        [(match side with | some .Left => 0x02 | _ => 0x03),
         if enable then 0x01 else 0x00]) := by
  exact ⟨fun fresh => rfl, rfl, by decide, by decide⟩

/-- Claim C8, counterexample: on the reply payload `[1, 9, 10, 20, 30, 40]`
the code's parser yields the pixel `(10, 20, 30)` — the bytes at offsets
`2, 3, 4` — while the claim's layout (group at `2 + 4i`, first byte an
ignored index, then R, G, B) would yield `(20, 30, 40)`. -/
theorem c8_led_parser_counterexample :
    parse_led_colors [1, 9, 10, 20, 30, 40] = [(10, 20, 30)]
  ∧ led_colors_claim [1, 9, 10, 20, 30, 40] = [(20, 30, 40)]
  ∧ parse_led_colors [1, 9, 10, 20, 30, 40] ≠ led_colors_claim [1, 9, 10, 20, 30, 40] := by
  decide

theorem ledReadGo_getElem (payload : List Nat) :
    ∀ (n index i : Nat), (ledReadGo payload index n)[i]? =
      if i < n ∧ 4 + 4 * (index + i) < payload.length then
        some (payload.getD (2 + 4 * (index + i)) 0, payload.getD (3 + 4 * (index + i)) 0,
          payload.getD (4 + 4 * (index + i)) 0)
      else none := by
  intro n
  induction n with
  | zero =>
    intro index i
    rw [if_neg (by omega)]
    simp [ledReadGo]
  | succ n ih =>
    intro index i
    simp only [ledReadGo]
    by_cases hfit : 2 + index * 4 + 2 < payload.length
    · rw [if_pos hfit]
      cases i with
      | zero =>
        have harith : index + 0 = index := rfl
        rw [if_pos (by omega)]
        simp only [List.getElem?_cons_zero, harith]
        have h2 : 2 + index * 4 = 2 + 4 * index := by ring
        rw [h2]
        have h3 : 2 + 4 * index + 1 = 3 + 4 * index := by ring
        have h4 : 2 + 4 * index + 2 = 4 + 4 * index := by ring
        rw [h3, h4]
      | succ j =>
        simp only [List.getElem?_cons_succ]
        rw [ih (index + 1) j]
        have harith : index + 1 + j = index + (j + 1) := by omega
        rw [harith]
        by_cases hc : j < n ∧ 4 + 4 * (index + (j + 1)) < payload.length
        · rw [if_pos hc, if_pos (by omega)]
        · rw [if_neg hc, if_neg (by omega)]
    · rw [if_neg hfit]
      rw [if_neg (by omega)]
      simp

/-- Claim C8 (amended): for every LED-case reply payload, pixel `i` of the
parse exists exactly when `i < payload[0]` and offset `4 + 4i` lies within
the payload, and then equals the bytes read directly at offsets `2 + 4i`,
`3 + 4i`, `4 + 4i` as R, G, B — i.e. relative to the 4-byte groups the
setter writes starting at offset `1 + 4i` (1-based index byte, then R, G,
B), the parser skips the index byte by starting one byte later; groups
whose RGB bytes would run past the end of the payload are dropped. -/
theorem c8_led_parser_pixels (payload : List Nat) (i : Nat) :
    (parse_led_colors payload)[i]? =
      if i < payload.getD 0 0 ∧ 4 + 4 * i < payload.length then
        some (payload.getD (2 + 4 * i) 0, payload.getD (3 + 4 * i) 0,
          payload.getD (4 + 4 * i) 0)
      else none := by
  cases payload with
  | nil =>
    rw [if_neg (by simp [List.getD])]
    simp [parse_led_colors]
  | cons c rest =>
    show (ledReadGo (c :: rest) 0 c)[i]? = _
    rw [ledReadGo_getElem (c :: rest) c 0 i]
    simp [List.getD]

/-- Claim C7, counterexample: on the 7-byte accumulator
`[0x55, 0, 0, 0, 0, 0, 0]` — which starts with `0x55` and whose bytes at
positions 1 and 2 are not `0x60, 0x01` — `try_parse` consumes nothing
(the length-8 guard returns first), so it does not behave like the
accumulator with one byte dropped. -/
theorem c7_short_accumulator_consumes_nothing :
    tryParse [0x55, 0, 0, 0, 0, 0, 0] = (.needMore, [0x55, 0, 0, 0, 0, 0, 0])
  ∧ tryParse [0x55, 0, 0, 0, 0, 0, 0] ≠ tryParse (List.drop 1 [0x55, 0, 0, 0, 0, 0, 0]) := by
  decide

/-- Claim C7 (amended): whenever the accumulator holds at least 8 bytes,
starts with `0x55`, and its bytes at positions 1 and 2 are not
`0x60, 0x01`, `try_parse` consumes exactly one byte from the front and
resumes the magic search from the top — it behaves exactly as on the
accumulator with its first byte removed.  (With fewer than 8 bytes the
length guard returns `None` first and nothing is consumed.) -/
theorem c7_resync_drops_exactly_one (buf : List Nat) (h8 : 8 ≤ buf.length)
    (h0 : buf.getD 0 0 = 0x55)
    (hmagic : ¬(buf.getD 1 0 = 0x60 ∧ buf.getD 2 0 = 0x01)) :
    tryParse buf = tryParse (buf.drop 1) := by
  cases buf with
  | nil => simp at h8
  | cons b t =>
    have hb : b = 0x55 := by simpa [List.getD] using h0
    subst hb
    show tryParseGo ((0x55 :: t).length + 1) (0x55 :: t) = tryParse t
    have hlen : (0x55 :: t).length = t.length + 1 := by simp
    rw [hlen]
    show tryParseGo (t.length + 1 + 1) (0x55 :: t) = tryParse t
    rw [tryParseGo]
    rw [if_neg (by simp at h8 ⊢; omega)]
    have hfind : findMagicIdx (0x55 :: t) = some 0 := by simp [findMagicIdx]
    rw [hfind]
    simp only [List.drop_zero]
    rw [if_neg (by simp at h8 ⊢; omega)]
    rw [if_neg (by simpa [List.getD] using hmagic)]
    simp [tryParse]

theorem crcRound_lt {c : Nat} (h : c < 65536) : crcRound c < 65536 := by
  unfold crcRound
  split
  · have e : (65536 : Nat) = 2 ^ 16 := by norm_num
    rw [e]
    exact Nat.xor_lt_two_pow (by omega) (by norm_num)
  · omega

theorem crcByte_lt {c b : Nat} (hc : c < 65536) (hb : b < 65536) : crcByte c b < 65536 := by
  have h0 : c ^^^ b < 65536 := by
    have e : (65536 : Nat) = 2 ^ 16 := by norm_num
    rw [e] at hc hb ⊢
    exact Nat.xor_lt_two_pow hc hb
  exact crcRound_lt (crcRound_lt (crcRound_lt (crcRound_lt (crcRound_lt (crcRound_lt
    (crcRound_lt (crcRound_lt h0)))))))

theorem foldl_crcByte_lt (l : List Nat) :
    ∀ init, init < 65536 → (∀ b ∈ l, b < 256) → l.foldl crcByte init < 65536 := by
  induction l with
  | nil => intro init h _; simpa using h
  | cons x xs ih =>
    intro init h hb
    simp only [List.foldl_cons]
    exact ih (crcByte init x) (crcByte_lt h (by have := hb x (by simp); omega))
      (fun b hbm => hb b (by simp [hbm]))

theorem crc16_lt (l : List Nat) (h : ∀ b ∈ l, b < 256) : crc16 l < 65536 :=
  foldl_crcByte_lt l 0xFFFF (by norm_num) h

/-- Claim C5: for every command, operation id, and byte payload of at most
255 bytes, feeding `EarPacket::encode(command, operation_id, payload)`
into `EarPacket::try_parse` yields exactly that packet, and the
accumulator is empty afterward. -/
theorem c5_encode_parse_roundtrip (c op : Nat) (p : List Nat)
    (hc : c < 65536) (hop : op < 256) (hlen : p.length ≤ 255)
    (hbytes : ∀ b ∈ p, b < 256) :
    tryParse (encode c op p) = (.packet ⟨c, op, p⟩, []) := by
  set q : Nat := crc16 ([0x55, 0x60, 0x01, c % 256, c / 256 % 256,
    p.length % 256, 0x00, op % 256] ++ p) with hq
  set E : List Nat := ([0x55, 0x60, 0x01, c % 256, c / 256 % 256,
    p.length % 256, 0x00, op % 256] ++ p) ++ [q % 256, q / 256 % 256] with hE
  have hq16 : q < 65536 := by
    rw [hq]
    apply crc16_lt
    intro b hb
    rcases List.mem_append.mp hb with h | h
    · simp at h
      rcases h with rfl | rfl | rfl | rfl | rfl | rfl | rfl | rfl <;> omega
    · exact hbytes b h
  have hplen : p.length % 256 = p.length := Nat.mod_eq_of_lt (by omega)
  have hElen : E.length = 10 + p.length := by
    rw [hE]
    simp
    omega
  have hEncE : encode c op p = E := by
    rw [hE, hq]
    rfl
  have hcons : E = 0x55 :: (0x60 :: 0x01 :: c % 256 :: c / 256 % 256 :: p.length % 256 ::
      0x00 :: op % 256 :: (p ++ [q % 256, q / 256 % 256])) := by
    rw [hE]
    simp
  have hfind : findMagicIdx E = some 0 := by
    rw [hcons]
    simp [findMagicIdx]
  rw [hEncE]
  unfold tryParse
  rw [hElen]
  simp only [tryParseGo]
  rw [if_neg (by rw [hElen]; omega)]
  rw [hfind]
  dsimp only []
  simp only [List.drop_zero]
  rw [if_neg (by rw [hElen]; omega)]
  have hg1 : E.getD 1 0 = 96 := by rw [hcons]; rfl
  have hg2 : E.getD 2 0 = 1 := by rw [hcons]; rfl
  have hg5 : E.getD 5 0 = p.length := by
    rw [hcons]
    simp [List.getD]
    omega
  rw [if_pos ⟨hg1, hg2⟩, hg5]
  rw [if_neg (by rw [hElen]; omega)]
  have htakeAll : E.take (8 + p.length + 2) = E := List.take_of_length_le (by rw [hElen]; omega)
  have hdropAll : E.drop (8 + p.length + 2) = [] := List.drop_of_length_le (by rw [hElen]; omega)
  rw [htakeAll, hdropAll]
  have harith : 8 + p.length + 2 - 2 = 8 + p.length := by omega
  have harith1 : 8 + p.length + 2 - 1 = 9 + p.length := by omega
  rw [harith, harith1]
  have hhdr : ([85, 96, 1, c % 256, c / 256 % 256, p.length % 256, 0, op % 256] ++ p).length
      = 8 + p.length := by simp; omega
  have hgetLo : E.getD (8 + p.length) 0 = q % 256 := by
    rw [hE, List.getD_eq_getElem?_getD, List.getElem?_append_right (by simp; omega)]
    have h0 : 8 + p.length
        - ([85, 96, 1, c % 256, c / 256 % 256, p.length % 256, 0, op % 256] ++ p).length = 0 := by
      simp
      omega
    rw [h0]
    rfl
  have hgetHi : E.getD (9 + p.length) 0 = q / 256 % 256 := by
    rw [hE, List.getD_eq_getElem?_getD, List.getElem?_append_right (by simp; omega)]
    have h1 : 9 + p.length
        - ([85, 96, 1, c % 256, c / 256 % 256, p.length % 256, 0, op % 256] ++ p).length = 1 := by
      simp
      omega
    rw [h1]
    rfl
  have htake8 : E.take (8 + p.length)
      = [85, 96, 1, c % 256, c / 256 % 256, p.length % 256, 0, op % 256] ++ p := by
    rw [hE]
    exact List.take_left' (by simp; omega)
  rw [htake8, ← hq, hgetLo, hgetHi]
  rw [if_pos (by omega)]
  have hcmd3 : E.getD 3 0 = c % 256 := by rw [hcons]; rfl
  have hcmd4 : E.getD 4 0 = c / 256 % 256 := by rw [hcons]; rfl
  have hop7 : E.getD 7 0 = op % 256 := by rw [hcons]; rfl
  have hdrop8 : E.drop 8 = p ++ [q % 256, q / 256 % 256] := by rw [hcons]; rfl
  have htakep : (p ++ [q % 256, q / 256 % 256]).take p.length = p := List.take_left p _
  rw [hcmd3, hcmd4, hop7, hdrop8, htakep]
  have e1 : c % 256 + 256 * (c / 256 % 256) = c := by omega
  have e2 : op % 256 = op := Nat.mod_eq_of_lt hop
  rw [e1, e2]

/-- Claim C5, witness: the round trip evaluated on command `0xC007`,
operation id `0x10` and payload `[0xAA, 0x55, 0x01]`. -/
theorem c5_encode_parse_roundtrip_witness :
    (0xC007 < 65536 ∧ 0x10 < 256 ∧ ([0xAA, 0x55, 0x01] : List Nat).length ≤ 255
      ∧ ∀ b ∈ ([0xAA, 0x55, 0x01] : List Nat), b < 256)
  ∧ tryParse (encode 0xC007 0x10 [0xAA, 0x55, 0x01]) =
      (.packet ⟨0xC007, 0x10, [0xAA, 0x55, 0x01]⟩, []) :=
  ⟨⟨by decide, by decide, by decide, by decide⟩,
    c5_encode_parse_roundtrip 0xC007 0x10 [0xAA, 0x55, 0x01] (by decide) (by decide)
      (by decide) (by decide)⟩

/-- Claim C7 (amended), witness: an 8-byte accumulator starting `0x55`
whose next two bytes fail the magic check. -/
theorem c7_resync_drops_exactly_one_witness :
    (8 ≤ ([0x55, 9, 9, 0, 0, 0, 0, 0] : List Nat).length
      ∧ ([0x55, 9, 9, 0, 0, 0, 0, 0] : List Nat).getD 0 0 = 0x55
      ∧ ¬(([0x55, 9, 9, 0, 0, 0, 0, 0] : List Nat).getD 1 0 = 0x60
          ∧ ([0x55, 9, 9, 0, 0, 0, 0, 0] : List Nat).getD 2 0 = 0x01))
  ∧ tryParse [0x55, 9, 9, 0, 0, 0, 0, 0] = tryParse (List.drop 1 [0x55, 9, 9, 0, 0, 0, 0, 0]) :=
  ⟨⟨by decide, by decide, by decide⟩,
    c7_resync_drops_exactly_one [0x55, 9, 9, 0, 0, 0, 0, 0] (by decide) (by decide) (by decide)⟩

theorem encode_eq_float_length (v : Nat) (t : Bool) : (encode_eq_float v t).length = 4 := by
  unfold encode_eq_float
  split
  · rfl
  · rfl

theorem writeSlice_length (l src : List Nat) (off : Nat) (h : off + src.length ≤ l.length) :
    (writeSlice l off src).length = l.length := by
  simp [writeSlice]
  omega

theorem writeSlice_extract (l src : List Nat) (off n : Nat) (hn : src.length = n)
    (h : off ≤ l.length) :
    ((writeSlice l off src).drop off).take n = src := by
  unfold writeSlice
  have hlen : (l.take off).length = off := by
    simp
    omega
  rw [List.append_assoc, List.drop_left' hlen]
  rw [← hn]
  exact List.take_left src _

theorem writeSlice_before (l src : List Nat) (off o n : Nat) (hregion : o + n ≤ off)
    (h : off ≤ l.length) :
    ((writeSlice l off src).drop o).take n = (l.drop o).take n := by
  unfold writeSlice
  have hlen : (l.take off).length = off := by
    simp
    omega
  rw [List.append_assoc, List.drop_append_eq_append_drop]
  rw [List.take_append_eq_append_take]
  have hdlen : ((l.take off).drop o).length = off - o := by
    simp
    omega
  rw [hdlen, hlen]
  have hz : n - (off - o) = 0 := by omega
  rw [hz]
  simp only [List.take_zero, List.append_nil]
  have ho : o - off = 0 := by omega
  rw [List.drop_take]
  rw [List.take_take]
  have hmin : min n (off - o) = n := by omega
  rw [hmin]

theorem encodeCustomEq_slots (eq : CustomEq) :
    (encode_custom_eq eq).length = 53
  ∧ ((encode_custom_eq eq).drop 1).take 4 =
      encode_eq_float (fneg (fabs (List.foldl fmax 0 [eq.mid, eq.treble, eq.bass]))) true
  ∧ ((encode_custom_eq eq).drop 6).take 4 = encode_eq_float eq.mid false
  ∧ ((encode_custom_eq eq).drop 19).take 4 = encode_eq_float eq.treble false
  ∧ ((encode_custom_eq eq).drop 32).take 4 = encode_eq_float eq.bass false := by
  have hT : eqTemplate.length = 53 := rfl
  set B0 := encode_eq_float (fneg (fabs (List.foldl fmax 0 [eq.mid, eq.treble, eq.bass]))) true
    with hB0def
  set Bm := encode_eq_float eq.mid false with hBmdef
  set Bt := encode_eq_float eq.treble false with hBtdef
  set Bb := encode_eq_float eq.bass false with hBbdef
  have hB0 : B0.length = 4 := by rw [hB0def]; exact encode_eq_float_length _ _
  have hBm : Bm.length = 4 := by rw [hBmdef]; exact encode_eq_float_length _ _
  have hBt : Bt.length = 4 := by rw [hBtdef]; exact encode_eq_float_length _ _
  have hBb : Bb.length = 4 := by rw [hBbdef]; exact encode_eq_float_length _ _
  set W1 := writeSlice eqTemplate 1 B0 with hW1def
  set W2 := writeSlice W1 6 Bm with hW2def
  set W3 := writeSlice W2 19 Bt with hW3def
  have hEnc : encode_custom_eq eq = writeSlice W3 32 Bb := rfl
  have hW1len : W1.length = 53 := by
    rw [hW1def, writeSlice_length _ _ _ (by rw [hB0, hT]; omega)]
    exact hT
  have hW2len : W2.length = 53 := by
    rw [hW2def, writeSlice_length _ _ _ (by rw [hBm, hW1len]; omega)]
    exact hW1len
  have hW3len : W3.length = 53 := by
    rw [hW3def, writeSlice_length _ _ _ (by rw [hBt, hW2len]; omega)]
    exact hW2len
  refine ⟨?_, ?_, ?_, ?_, ?_⟩
  · rw [hEnc, writeSlice_length _ _ _ (by rw [hBb, hW3len]; omega)]
    exact hW3len
  · rw [hEnc, writeSlice_before _ _ 32 1 4 (by omega) (by rw [hW3len]; omega)]
    rw [hW3def, writeSlice_before _ _ 19 1 4 (by omega) (by rw [hW2len]; omega)]
    rw [hW2def, writeSlice_before _ _ 6 1 4 (by omega) (by rw [hW1len]; omega)]
    rw [hW1def, writeSlice_extract _ _ 1 4 hB0 (by rw [hT]; omega)]
  · rw [hEnc, writeSlice_before _ _ 32 6 4 (by omega) (by rw [hW3len]; omega)]
    rw [hW3def, writeSlice_before _ _ 19 6 4 (by omega) (by rw [hW2len]; omega)]
    rw [hW2def, writeSlice_extract _ _ 6 4 hBm (by rw [hW1len]; omega)]
  · rw [hEnc, writeSlice_before _ _ 32 19 4 (by omega) (by rw [hW3len]; omega)]
    rw [hW3def, writeSlice_extract _ _ 19 4 hBt (by rw [hW2len]; omega)]
  · rw [hEnc, writeSlice_extract _ _ 32 4 hBb (by rw [hW3len]; omega)]

theorem eq_float_roundtrip (v : Nat) (hv : v < 2 ^ 32) (h1 : 1 ≤ f32Exp v) :
    decode_eq_float (encode_eq_float v false) = v := by
  rw [f32Exp] at h1
  unfold encode_eq_float
  simp only [Bool.false_and, Bool.false_eq_true, if_false]
  have hmark : (fne0 v && (v / 2 ^ 24 % 256 == 0) && (v / 2 ^ 16 % 256 == 0)
      && (v / 2 ^ 8 % 256 == 0)) = false := by
    by_contra hne
    rw [Bool.not_eq_false] at hne
    simp only [Bool.and_eq_true, beq_iff_eq] at hne
    omega
  rw [hmark]
  simp only [Bool.false_eq_true, if_false]
  unfold decode_eq_float
  rw [if_neg (by simp)]
  rw [if_neg ?notzero]
  case notzero =>
    rintro ⟨ha, hb, hc, -⟩
    simp only [List.getD_eq_getElem?_getD, List.getElem?_cons_zero, List.getElem?_cons_succ,
      Option.getD_some] at ha hb hc
    omega
  simp only [List.getD_eq_getElem?_getD, List.getElem?_cons_zero, List.getElem?_cons_succ,
    Option.getD_some]
  omega

/-- Claim C6: for every `CustomEq` whose bands are normal finite `f32`
values (exponent field between 1 and 254), `decode_custom_eq` of
`encode_custom_eq` succeeds and returns `bass`, `mid` and `treble`
bitwise equal to the originals, the three band slots sitting at payload
offsets 6 (mid), 19 (treble) and 32 (bass). -/
theorem c6_custom_eq_roundtrip (eq : CustomEq)
    (hbv : eq.bass < 2 ^ 32) (hb1 : 1 ≤ f32Exp eq.bass) (hb2 : f32Exp eq.bass ≤ 254)
    (hmv : eq.mid < 2 ^ 32) (hm1 : 1 ≤ f32Exp eq.mid) (hm2 : f32Exp eq.mid ≤ 254)
    (htv : eq.treble < 2 ^ 32) (ht1 : 1 ≤ f32Exp eq.treble) (ht2 : f32Exp eq.treble ≤ 254) :
    decode_custom_eq (encode_custom_eq eq) = some eq
  ∧ ((encode_custom_eq eq).drop 6).take 4 = encode_eq_float eq.mid false
  ∧ ((encode_custom_eq eq).drop 19).take 4 = encode_eq_float eq.treble false
  ∧ ((encode_custom_eq eq).drop 32).take 4 = encode_eq_float eq.bass false := by
  obtain ⟨hlen, hslot1, hslot6, hslot19, hslot32⟩ := encodeCustomEq_slots eq
  refine ⟨?_, hslot6, hslot19, hslot32⟩
  unfold decode_custom_eq
  rw [if_neg (by rw [hlen]; omega), if_neg (by rw [hlen]; omega)]
  rw [hslot6, hslot19, hslot32]
  rw [eq_float_roundtrip eq.mid hmv hm1, eq_float_roundtrip eq.treble htv ht1,
    eq_float_roundtrip eq.bass hbv hb1]

theorem fmax_not_nan (a v : Nat) (ha : f32IsNaN a = false) (hv : f32IsNaN v = false) :
    fmax a v = if f32Key a < f32Key v then v else a := by
  simp [fmax, ha, hv]

theorem fabs_of_key_pos (b : Nat) (h : 0 < f32Key b) : fabs b = b := by
  unfold f32Key at h
  unfold fabs
  split at h
  · next hlt => exact Nat.mod_eq_of_lt hlt
  · exfalso
    omega

/-- Claim C2 (amended): the payload produced by `encode_custom_eq` is 53
bytes (not 55), and offsets `1..5` hold
`encode_eq_float(-max(0.0, mid, treble, bass).abs(), total = true)` — the
negated maximum of the three SIGNED band values and zero, not of their
absolute values: whenever no band is positive the slot is
`[0, 0, 0, 0x80]`, and otherwise it is `encode_eq_float` of the negated
largest band (stated here for non-NaN bands; `bandArgmax` picks that
largest band in the fold order of the code). -/
theorem c2_total_slot_amended (eq : CustomEq) (hm : f32IsNaN eq.mid = false)
    (ht : f32IsNaN eq.treble = false) (hb : f32IsNaN eq.bass = false) :
    (encode_custom_eq eq).length = 53
  ∧ ((encode_custom_eq eq).drop 1).take 4 =
      (if f32Key eq.mid ≤ 0 ∧ f32Key eq.treble ≤ 0 ∧ f32Key eq.bass ≤ 0 then
        [0x00, 0x00, 0x00, 0x80]
      else encode_eq_float (fneg (bandArgmax eq)) true) := by
  obtain ⟨hlen, hslot1, -, -, -⟩ := encodeCustomEq_slots eq
  refine ⟨hlen, ?_⟩
  rw [hslot1]
  have hfold : List.foldl fmax 0 [eq.mid, eq.treble, eq.bass]
      = fmax (fmax (fmax 0 eq.mid) eq.treble) eq.bass := rfl
  rw [hfold]
  have h0nan : f32IsNaN 0 = false := rfl
  have hk0 : f32Key 0 = 0 := rfl
  by_cases hall : f32Key eq.mid ≤ 0 ∧ f32Key eq.treble ≤ 0 ∧ f32Key eq.bass ≤ 0
  · rw [if_pos hall]
    obtain ⟨a1, a2, a3⟩ := hall
    rw [fmax_not_nan 0 eq.mid h0nan hm, hk0, if_neg (by omega)]
    rw [fmax_not_nan 0 eq.treble h0nan ht, hk0, if_neg (by omega)]
    rw [fmax_not_nan 0 eq.bass h0nan hb, hk0, if_neg (by omega)]
    rfl
  · rw [if_neg hall]
    suffices h : fabs (fmax (fmax (fmax 0 eq.mid) eq.treble) eq.bass) = bandArgmax eq by rw [h]
    rw [fmax_not_nan 0 eq.mid h0nan hm, hk0]
    by_cases h1 : (0 : Int) < f32Key eq.mid
    · rw [if_pos h1, fmax_not_nan eq.mid eq.treble hm ht]
      by_cases h2 : f32Key eq.mid < f32Key eq.treble
      · rw [if_pos h2, fmax_not_nan eq.treble eq.bass ht hb]
        by_cases h3 : f32Key eq.treble < f32Key eq.bass
        · rw [if_pos h3]
          have hArg : bandArgmax eq = eq.bass := by
            unfold bandArgmax
            split_ifs <;> omega
          rw [hArg]
          exact fabs_of_key_pos _ (by omega)
        · rw [if_neg h3]
          have hArg : bandArgmax eq = eq.treble := by
            unfold bandArgmax
            split_ifs <;> omega
          rw [hArg]
          exact fabs_of_key_pos _ (by omega)
      · rw [if_neg h2, fmax_not_nan eq.mid eq.bass hm hb]
        by_cases h3 : f32Key eq.mid < f32Key eq.bass
        · rw [if_pos h3]
          have hArg : bandArgmax eq = eq.bass := by
            unfold bandArgmax
            split_ifs <;> omega
          rw [hArg]
          exact fabs_of_key_pos _ (by omega)
        · rw [if_neg h3]
          have hArg : bandArgmax eq = eq.mid := by
            unfold bandArgmax
            split_ifs <;> omega
          rw [hArg]
          exact fabs_of_key_pos _ (by omega)
    · rw [if_neg h1, fmax_not_nan 0 eq.treble h0nan ht, hk0]
      by_cases h2 : (0 : Int) < f32Key eq.treble
      · rw [if_pos h2, fmax_not_nan eq.treble eq.bass ht hb]
        by_cases h3 : f32Key eq.treble < f32Key eq.bass
        · rw [if_pos h3]
          have hArg : bandArgmax eq = eq.bass := by
            unfold bandArgmax
            split_ifs <;> omega
          rw [hArg]
          exact fabs_of_key_pos _ (by omega)
        · rw [if_neg h3]
          have hArg : bandArgmax eq = eq.treble := by
            unfold bandArgmax
            split_ifs <;> omega
          rw [hArg]
          exact fabs_of_key_pos _ (by omega)
      · rw [if_neg h2, fmax_not_nan 0 eq.bass h0nan hb, hk0]
        by_cases h3 : (0 : Int) < f32Key eq.bass
        · rw [if_pos h3]
          have hArg : bandArgmax eq = eq.bass := by
            unfold bandArgmax
            split_ifs <;> omega
          rw [hArg]
          exact fabs_of_key_pos _ (by omega)
        · exact absurd ⟨by omega, by omega, by omega⟩ hall

/-- Claim C2, counterexample: with `mid = -3.0` (bits `0xC0400000`) and
`treble = bass = 0.0` the code stores `[0, 0, 0, 0x80]` in the total slot
(the fold maximum `max(0.0, -3.0, 0.0, 0.0) = 0.0`, negated, is `>= 0.0`),
while the claim's formula `encode_eq_float(-max(|mid|, |treble|, |bass|))
= encode_eq_float(-3.0)` gives `[0, 0, 0x40, 0xC0]`; the payload is also
53 bytes, not 55. -/
theorem c2_total_slot_counterexample :
    ((encode_custom_eq ⟨0, 0xC0400000, 0⟩).drop 1).take 4 = [0x00, 0x00, 0x00, 0x80]
  ∧ spec_total_bytes ⟨0, 0xC0400000, 0⟩ = [0x00, 0x00, 0x40, 0xC0]
  ∧ ((encode_custom_eq ⟨0, 0xC0400000, 0⟩).drop 1).take 4 ≠ spec_total_bytes ⟨0, 0xC0400000, 0⟩
  ∧ (encode_custom_eq ⟨0, 0xC0400000, 0⟩).length = 53 := by
  decide

/-- Claim C2 (amended), witness: bands `mid = 3.0`, `treble = 0.0`,
`bass = 1.0`. -/
theorem c2_total_slot_amended_witness :
    (f32IsNaN (0x40400000 : Nat) = false ∧ f32IsNaN (0 : Nat) = false
      ∧ f32IsNaN (0x3F800000 : Nat) = false)
  ∧ ((encode_custom_eq ⟨0x3F800000, 0x40400000, 0⟩).length = 53
    ∧ ((encode_custom_eq ⟨0x3F800000, 0x40400000, 0⟩).drop 1).take 4 =
        (if f32Key (0x40400000 : Nat) ≤ 0 ∧ f32Key (0 : Nat) ≤ 0
            ∧ f32Key (0x3F800000 : Nat) ≤ 0 then
          [0x00, 0x00, 0x00, 0x80]
        else encode_eq_float (fneg (bandArgmax ⟨0x3F800000, 0x40400000, 0⟩)) true)) :=
  ⟨⟨by decide, by decide, by decide⟩,
    c2_total_slot_amended ⟨0x3F800000, 0x40400000, 0⟩ (by decide) (by decide) (by decide)⟩

/-- Claim C6, witness: all three bands `1.0` (bits `0x3F800000`). -/
theorem c6_custom_eq_roundtrip_witness :
    ((0x3F800000 : Nat) < 2 ^ 32 ∧ 1 ≤ f32Exp 0x3F800000 ∧ f32Exp 0x3F800000 ≤ 254)
  ∧ (decode_custom_eq (encode_custom_eq ⟨0x3F800000, 0x3F800000, 0x3F800000⟩) =
        some ⟨0x3F800000, 0x3F800000, 0x3F800000⟩
    ∧ ((encode_custom_eq ⟨0x3F800000, 0x3F800000, 0x3F800000⟩).drop 6).take 4 =
        encode_eq_float 0x3F800000 false
    ∧ ((encode_custom_eq ⟨0x3F800000, 0x3F800000, 0x3F800000⟩).drop 19).take 4 =
        encode_eq_float 0x3F800000 false
    ∧ ((encode_custom_eq ⟨0x3F800000, 0x3F800000, 0x3F800000⟩).drop 32).take 4 =
        encode_eq_float 0x3F800000 false) :=
  ⟨⟨by decide, by decide, by decide⟩,
    c6_custom_eq_roundtrip ⟨0x3F800000, 0x3F800000, 0x3F800000⟩ (by decide) (by decide)
      (by decide) (by decide) (by decide) (by decide) (by decide) (by decide) (by decide)⟩
